import Mathlib

/-!
Verification of the TubeGrabPro backend (src/server.js and the Download
mongoose model) against its natural-language specification.

The embedding below translates the request handlers of server.js:
the retry loop around ytdl.getInfo, the format selection for
GET /api/download (filter + Array.prototype.sort + first element),
the stream error listeners, the title sanitization, the duration
formatter, and the shape of the JSON body built for POST /api/video-info.

Conventions of the embedding:
* A JavaScript value that may be undefined is an Option.
* NaN produced by arithmetic on undefined operands inside a sort
  comparator is modelled by the Option pattern match in the comparator:
  the ECMAScript SortCompare operation coerces a NaN comparator result
  to +0, so the comparator returns 0 when either key is missing.
* Array.prototype.sort is stable (ES2019); it is modelled by a stable
  insertion sort.
* Fallible upstream calls are an oracle Nat → Except UpstreamError
  StreamInfo giving the outcome of the n-th upstream call.
-/

/-- An error thrown by the upstream extraction library; only its
message string is inspected by server.js. -/
structure UpstreamError where
  msg : String
deriving DecidableEq, Repr

/-- One entry of info.formats as used by server.js: itag, container,
mimeType, qualityLabel, hasVideo/hasAudio flags, audioBitrate and
contentLength.  Fields that may be undefined are Options. -/
structure StreamDescriptor where
  itag : Int
  container : Option String
  mimeType : Option String
  qualityLabel : Option String
  hasVideo : Bool
  hasAudio : Bool
  audioBitrate : Option Int
  contentLength : Option String
deriving DecidableEq, Repr

/-- The part of the ytdl.getInfo result that server.js reads:
videoDetails.title, videoDetails.author.name, videoDetails.thumbnails
(urls), videoDetails.lengthSeconds and formats. -/
structure StreamInfo where
  title : String
  authorName : String
  thumbnails : List String
  lengthSeconds : Nat
  formats : List StreamDescriptor
deriving DecidableEq, Repr

/-- Does the needle begin the haystack?  (List-level startsWith.) -/
def leadMatch : List Char → List Char → Bool
  | [], _ => true
  | _ :: _, [] => false
  | a :: as, b :: bs => a == b && leadMatch as bs

/-- Substring test: models String.prototype.includes. -/
def subMatch (needle : List Char) : List Char → Bool
  | [] => needle.isEmpty
  | c :: rest => leadMatch needle (c :: rest) || subMatch needle rest

/-- The character class matched by the regex escape w in JavaScript:
ASCII letters, digits and the underscore. -/
def isWordChar (c : Char) : Bool :=
  c.isAlphanum || c == '_'

/-- The character class matched by the regex escape s in JavaScript
(WhiteSpace plus LineTerminator), also the set trimmed by
String.prototype.trim. -/
def isJsSpace (c : Char) : Bool :=
  c == ' ' || c == '\t' || c == '\n' || c == '\r' ||
  c.toNat == 11 || c.toNat == 12 || c.toNat == 160 ||
  c.toNat == 0x1680 || (0x2000 ≤ c.toNat && c.toNat ≤ 0x200A) ||
  c.toNat == 0x2028 || c.toNat == 0x2029 || c.toNat == 0x202F ||
  c.toNat == 0x205F || c.toNat == 0x3000 || c.toNat == 0xFEFF

/-- A character kept by the replace in
`title.replace(/[^\w\s-]/gi, "")`: word character, whitespace or
hyphen. -/
def keepChar (c : Char) : Bool :=
  isWordChar c || isJsSpace c || c == '-'

/-- String.prototype.trim at the character-list level: drop leading and
trailing whitespace. -/
def jsTrim (l : List Char) : List Char :=
  (((l.dropWhile isJsSpace).reverse.dropWhile isJsSpace)).reverse

/-- `info.videoDetails.title.replace(/[^\w\s-]/gi, "").trim()`
(server.js line 137): strip every character outside word characters,
whitespace and hyphen, then trim. -/
def sanitize (t : String) : String :=
  String.mk (jsTrim (t.data.filter keepChar))

/-- The attachment base file name of the video branch (line 218):
the sanitized title followed by ".mp4"; there is no fallback name. -/
def videoFileName (title : String) : String :=
  sanitize title ++ ".mp4"

/-- The attachment base file name of the audio branch (line 150). -/
def audioFileName (title : String) : String :=
  sanitize title ++ ".mp3"

/-- Decimal digit run parser used by the parseInt model. -/
def parseDecDigits (cs : List Char) : Option Nat :=
  let ds := cs.takeWhile Char.isDigit
  if ds.isEmpty then none
  else some (ds.foldl (fun acc c => acc * 10 + (c.toNat - 48)) 0)

/-- Hex digit test for the 0x prefix case of parseInt. -/
def isHexDigit (c : Char) : Bool :=
  c.isDigit || ('a' ≤ c && c ≤ 'f') || ('A' ≤ c && c ≤ 'F')

/-- Value of one hex digit. -/
def hexVal (c : Char) : Nat :=
  if c.isDigit then c.toNat - 48
  else if 'a' ≤ c && c ≤ 'f' then c.toNat - 87
  else c.toNat - 55

/-- Hexadecimal digit run parser for the 0x prefix case of parseInt. -/
def parseHexDigits (cs : List Char) : Option Nat :=
  let ds := cs.takeWhile isHexDigit
  if ds.isEmpty then none
  else some (ds.foldl (fun acc c => acc * 16 + hexVal c) 0)

/-- Leading magnitude of parseInt after sign removal: a `0x`/`0X`
prefix switches to hexadecimal, otherwise leading decimal digits are
taken; none models NaN. -/
def parseIntMag (cs : List Char) : Option Nat :=
  match cs with
  | '0' :: x :: rest =>
    if x == 'x' || x == 'X' then parseHexDigits rest else parseDecDigits cs
  | _ => parseDecDigits cs

/-- Model of the JavaScript global parseInt with no radix argument:
skip leading whitespace, read an optional sign, then the leading
numeric literal; none models NaN. -/
def jsParseInt (s : String) : Option Int :=
  match s.data.dropWhile isJsSpace with
  | '-' :: rest => (parseIntMag rest).map (fun n => -(n : Int))
  | '+' :: rest => (parseIntMag rest).map (fun n => (n : Int))
  | rest => (parseIntMag rest).map (fun n => (n : Int))

/-- `n.toString().padStart(2, "0")` for a natural number rendering:
prepend zeros up to length two. -/
def padStart2 (s : String) : String :=
  if s.length < 2 then String.mk (List.replicate (2 - s.length) '0') ++ s
  else s

/-- formatDuration (server.js lines 308-320).  The claims restrict the
argument to non-negative integers, so the model takes a Nat. -/
def formatDuration (seconds : Nat) : String :=
  let hours := seconds / 3600
  let minutes := (seconds % 3600) / 60
  let secs := seconds % 60
  if hours > 0 then
    Nat.repr hours ++ ":" ++ padStart2 (Nat.repr minutes) ++ ":" ++
      padStart2 (Nat.repr secs)
  else
    Nat.repr minutes ++ ":" ++ padStart2 (Nat.repr secs)

/-- The literal tested by `error.message.includes("Sign in to confirm")`
in the retry loops of both endpoints (lines 74 and 125). -/
def signInNeedle : List Char := "Sign in to confirm".data

/-- Does the upstream error message contain the authentication
challenge signature? -/
def containsSignIn (msg : String) : Bool :=
  subMatch signInNeedle msg.data

/-- The while loop of lines 65-85 (identically 116-136): starting with
`retries` attempts remaining, call the upstream once per iteration,
return on success, rethrow immediately when the error lacks the
authentication challenge signature or this was the last attempt, and
otherwise decrement and retry.  The first component is the outcome, the
second the number of upstream calls made.  The fuel-zero branch is
unreachable from any positive retry budget because the budget-one case
always returns; it exists only to make the recursion structural. -/
def retryLoop (oracle : Nat → Except UpstreamError StreamInfo) :
    Nat → Nat → Except UpstreamError StreamInfo × Nat
  | 0, calls => (Except.error ⟨"loop exited without info"⟩, calls)
  | r + 1, calls =>
    match oracle calls with
    | Except.ok info => (Except.ok info, calls + 1)
    | Except.error e =>
      if r = 0 ∨ containsSignIn e.msg = false then (Except.error e, calls + 1)
      else retryLoop oracle r (calls + 1)

/-- The retry logic of both endpoints with its hard-coded budget
`let retries = 3`. -/
def getInfoRetry (oracle : Nat → Except UpstreamError StreamInfo) :
    Except UpstreamError StreamInfo × Nat :=
  retryLoop oracle 3 0

/-- Stable insertion into a list sorted by a JavaScript comparator: the
inserted element goes before the first element it compares at most
equal to.  Used to model Array.prototype.sort. -/
def insertBy (c : α → α → Int) (x : α) : List α → List α
  | [] => [x]
  | y :: ys => if c x y ≤ 0 then x :: y :: ys else y :: insertBy c x ys

/-- Model of Array.prototype.sort with a comparator: a stable sort.
ES2019 requires sort to be stable, and the ECMAScript SortCompare
operation coerces a NaN comparator result to +0; every comparator
below already encodes that coercion, and all theorems either assume
key sets on which the comparator is consistent (where the stable
result is unique) or evaluate two-element lists (where stability alone
determines the result). -/
def sortJs (c : α → α → Int) : List α → List α
  | [] => []
  | x :: xs => insertBy c x (sortJs c xs)

/-- The filter of the video branch (line 238):
`format.container === "mp4" && format.hasVideo && format.hasAudio`. -/
def muxedMp4 (d : StreamDescriptor) : Bool :=
  d.container == some "mp4" && d.hasVideo && d.hasAudio

/-- The quality key computed inside the video comparator (lines
243-244): `a.qualityLabel ? parseInt(a.qualityLabel) : 0`.  A missing
or empty label is falsy and yields 0; a present label is fed to
parseInt, whose NaN outcome is none. -/
def videoKey (d : StreamDescriptor) : Option Int :=
  match d.qualityLabel with
  | none => some 0
  | some s => if s == "" then some 0 else jsParseInt s

/-- The video comparator of lines 242-246:
`format === "highest" ? bRes - aRes : aRes - bRes`, with the SortCompare
coercion of a NaN result to 0 when either key is NaN. -/
def cVideo (high : Bool) (a b : StreamDescriptor) : Int :=
  match videoKey a, videoKey b with
  | some ka, some kb => if high then kb - ka else ka - kb
  | _, _ => 0

/-- The muxed-video selection of lines 237-249: filter, in-place sort,
then `formats.length > 0 ? formats[0] : null`. -/
def selectVideo (l : List StreamDescriptor) (high : Bool) :
    Option StreamDescriptor :=
  (sortJs (cVideo high) (l.filter muxedMp4)).head?

/-- The filter of the audio branch (lines 160-162):
`format.hasAudio && !format.hasVideo`. -/
def audioOnly (d : StreamDescriptor) : Bool :=
  d.hasAudio && !d.hasVideo

/-- The audio comparator of line 165:
`(a, b) => b.audioBitrate - a.audioBitrate`; an undefined bitrate makes
the subtraction NaN, which SortCompare coerces to 0. -/
def cAudio (a b : StreamDescriptor) : Int :=
  match a.audioBitrate, b.audioBitrate with
  | some ka, some kb => kb - ka
  | _, _ => 0

/-- The audio selection of lines 160-169: filter, sort descending by
bitrate, then `audioFormats.length > 0 ? audioFormats[0] : null`. -/
def selectAudio (l : List StreamDescriptor) : Option StreamDescriptor :=
  (sortJs cAudio (l.filter audioOnly)).head?

/-- The test `format === "highest"` applied to the optional query
parameter (lines 234 and 245); an absent parameter is undefined and
fails the strict comparison. -/
def wantHighest (format : Option String) : Bool :=
  format == some "highest"

/-- `qualityOption` (lines 233-234). -/
def qualityOption (format : Option String) : String :=
  if wantHighest format then "highestvideo" else "lowestvideo"

/-- How a download response body is sourced: from an explicitly
selected descriptor via downloadFromInfo, or from a generic
quality-hint request when no candidate matched. -/
inductive StreamSource where
  | fromDescriptor : StreamDescriptor → StreamSource
  | fallbackQuality : String → StreamSource
deriving DecidableEq, Repr

/-- The video stream choice of lines 249-260: the selected muxed
format if any, else `ytdl(url, { quality: qualityOption, filter:
"videoandaudio" })`. -/
def videoStreamSource (format : Option String)
    (l : List StreamDescriptor) : StreamSource :=
  match selectVideo l (wantHighest format) with
  | some d => StreamSource.fromDescriptor d
  | none => StreamSource.fallbackQuality (qualityOption format)

/-- The audio stream choice of lines 168-181: the selected audio-only
format if any, else `ytdl(url, { quality: "highestaudio", filter:
"audioonly" })`. -/
def audioStreamSource (l : List StreamDescriptor) : StreamSource :=
  match selectAudio l with
  | some d => StreamSource.fromDescriptor d
  | none => StreamSource.fallbackQuality "highestaudio"

/-- The format field stored by the Download model: the schema
(models/Download.js) declares `default: 'highest'`, which mongoose
applies when the handler passes an undefined format (line 143). -/
def recordFormat (format : Option String) : String :=
  format.getD "highest"

/-- JSON values as serialized by res.json. -/
inductive JVal where
  | str : String → JVal
  | num : Int → JVal
  | bool : Bool → JVal
  | arr : List JVal → JVal
  | obj : List (String × JVal) → JVal
deriving Repr

/-- Keys of a JSON object (empty for non-objects). -/
def jKeys : JVal → List String
  | JVal.obj fields => fields.map Prod.fst
  | _ => []

/-- Field lookup in a JSON object. -/
def jGet (k : String) : JVal → Option JVal
  | JVal.obj fields => (fields.find? (fun f => f.fst == k)).map Prod.snd
  | _ => none

/-- An HTTP response as produced by the handlers: a status code and a
JSON body. -/
structure HttpResponse where
  status : Nat
  body : JVal

/-- One entry of the formats array of the video-info body (lines
93-97): `{ itag, quality: format.qualityLabel, mimeType:
format.mimeType }`.  res.json serializes via JSON.stringify, which
omits a key whose value is undefined, so optional fields appear only
when present. -/
def fmtEntry (f : StreamDescriptor) : JVal :=
  JVal.obj
    ([("itag", JVal.num f.itag)] ++
      (match f.qualityLabel with
        | some q => [("quality", JVal.str q)]
        | none => []) ++
      (match f.mimeType with
        | some m => [("mimeType", JVal.str m)]
        | none => []))

/-- The videoInfo object of lines 87-98.  The code reads
`info.videoDetails.thumbnails[0].url`; with an empty thumbnail list
that indexing raises a TypeError inside the try block, so body
construction fails (none) and the request falls into the catch
handler. -/
def videoInfoBody (url : String) (info : StreamInfo) : Option JVal :=
  match info.thumbnails with
  | [] => none
  | t :: _ =>
    some (JVal.obj
      [("url", JVal.str url),
       ("title", JVal.str info.title),
       ("author", JVal.str info.authorName),
       ("thumbnail", JVal.str t),
       ("duration", JVal.str (formatDuration info.lengthSeconds)),
       ("formats", JVal.arr (info.formats.map fmtEntry))])

/-- POST /api/video-info (lines 56-105): 400 on an invalid URL, then
the retry loop; any error reaching the catch handler produces
`res.status(500).json({ message: "Failed to fetch video information" })`,
and a successful build produces `res.json(videoInfo)` (status 200). -/
def videoInfoHandler (urlValid : Bool) (url : String)
    (oracle : Nat → Except UpstreamError StreamInfo) : HttpResponse :=
  if !urlValid then
    ⟨400, JVal.obj [("message", JVal.str "Invalid YouTube URL")]⟩
  else
    match (getInfoRetry oracle).1 with
    | Except.error _ =>
      ⟨500, JVal.obj [("message", JVal.str "Failed to fetch video information")]⟩
    | Except.ok info =>
      match videoInfoBody url info with
      | none =>
        ⟨500, JVal.obj [("message", JVal.str "Failed to fetch video information")]⟩
      | some b => ⟨200, b⟩

/-- The catch handler of GET /api/download (lines 297-304) for errors
raised before any byte is streamed (headers not yet sent):
`res.status(500).json({ message: "Failed to download video: " +
error.message })`. -/
def downloadFailureResponse (e : UpstreamError) : HttpResponse :=
  ⟨500, JVal.obj
    [("message", JVal.str ("Failed to download video: " ++ e.msg))]⟩

/-- The resolution phase of GET /api/download (lines 107-136): 400 on
an invalid URL, otherwise the retry loop; a resolution failure reaches
the catch handler while headersSent is still false and yields the 500
response. -/
def downloadResolve (urlValid : Bool)
    (oracle : Nat → Except UpstreamError StreamInfo) :
    Except HttpResponse StreamInfo :=
  if !urlValid then
    Except.error ⟨400, JVal.obj [("message", JVal.str "Invalid YouTube URL")]⟩
  else
    match (getInfoRetry oracle).1 with
    | Except.error e => Except.error (downloadFailureResponse e)
    | Except.ok info => Except.ok info

/-- What a stream error listener does to the client response. -/
inductive ClientAction where
  | sendJson : Nat → String → ClientAction
  | terminateConnection : ClientAction
  | noAction : ClientAction
deriving DecidableEq, Repr

/-- The audioStream error listener (lines 208-213).  In this relay,
res.headersSent is true exactly when at least one body byte has been
flushed to the client; when it is, the listener only logs and leaves
the response untouched. -/
def audioStreamErrorAction (headersSent : Bool) : ClientAction :=
  if headersSent then ClientAction.noAction
  else ClientAction.sendJson 500 "Failed to download audio"

/-- The videoStream error listener (lines 288-293), same shape as the
audio one. -/
def videoStreamErrorAction (headersSent : Bool) : ClientAction :=
  if headersSent then ClientAction.noAction
  else ClientAction.sendJson 500 "Failed to download video"

/-- Earliest minimizer of an integer key: the first element whose key
is at most every later key.  Specification-side characterization of a
stable ascending sort followed by head. -/
def argminFirst (f : α → Int) : List α → Option α
  | [] => none
  | x :: xs =>
    match argminFirst f xs with
    | none => some x
    | some y => if f y < f x then some y else some x

/-- Earliest maximizer of an integer key. -/
def argmaxFirst (f : α → Int) (l : List α) : Option α :=
  argminFirst (fun a => -(f a)) l

/-- The quality key as the specification words it: the parsed leading
integer of the quality label with absent or unparsable labels treated
as 0. -/
def specVideoKey (d : StreamDescriptor) : Int :=
  match d.qualityLabel with
  | none => 0
  | some s => (jsParseInt s).getD 0

/-- Modelled from the spec: selectVideo as the claim words it — filter
muxed mp4 candidates, order by the parsed quality-label integer with
absent or unparsable labels treated as 0, descending when the highest
class is requested, ties broken by original order, first match or
null.  Used only to compare the claimed behavior with the code. -/
def selectVideoSpec (l : List StreamDescriptor) (high : Bool) :
    Option StreamDescriptor :=
  if high then argmaxFirst specVideoKey (l.filter muxedMp4)
  else argminFirst specVideoKey (l.filter muxedMp4)

/-- Modelled from the spec: selectAudio as the claim words it — the
candidate with maximum audioBitrate among audio-only descriptors,
absent bitrate treated as 0, null when none match.  Used only to
compare the claimed behavior with the code. -/
def selectAudioSpec (l : List StreamDescriptor) :
    Option StreamDescriptor :=
  argmaxFirst (fun d => d.audioBitrate.getD 0) (l.filter audioOnly)

/-- Modelled from the spec: the Resilient Resolver of section 4.1,
which the claim attributes to both endpoints — up to maxAttemptCycles
times identityCount (default 9) upstream calls, continuing past every
failure, returning the first success immediately and otherwise the
last-observed error.  Missing from the code, which retries at most 3
times and only on the authentication challenge signature. -/
def specResolveAux (oracle : Nat → Except UpstreamError StreamInfo) :
    Nat → Nat → UpstreamError → Except UpstreamError StreamInfo
  | 0, _, last => Except.error last
  | b + 1, idx, _ =>
    match oracle idx with
    | Except.ok info => Except.ok info
    | Except.error e => specResolveAux oracle b (idx + 1) e

/-- Modelled from the spec: the resolver contract of section 4.1 with
the default budget of 9 upstream calls. -/
def specResolve (oracle : Nat → Except UpstreamError StreamInfo) :
    Except UpstreamError StreamInfo :=
  specResolveAux oracle 9 0 ⟨"no attempt made"⟩

/-- The outcome categories of the Error Classifier of spec section
4.3. -/
inductive ErrorClass where
  | pageStructureChanged : ErrorClass
  | upstreamTimeout : ErrorClass
  | invalidInput : ErrorClass
  | unknown : ErrorClass
deriving DecidableEq, Repr

/-- Modelled from the spec: the pattern set of the Error Classifier
for page-parsing or signature-extraction failures.  The classifier is
missing from the code and the spec names no literal patterns, so the
set holds representative extraction-failure message fragments. -/
def pageStructurePats : List (List Char) :=
  ["Could not extract".data, "Could not parse".data, "signature".data]

/-- Modelled from the spec: the abort/timeout pattern set of the Error
Classifier, likewise representative. -/
def timeoutPats : List (List Char) :=
  ["aborted".data, "timed out".data, "timeout".data, "ETIMEDOUT".data]

/-- Modelled from the spec: classify(error) of section 4.3, first
match wins — page-structure patterns, then timeout patterns, else
Unknown. -/
def specClassify (e : UpstreamError) : ErrorClass :=
  if pageStructurePats.any (fun p => subMatch p e.msg.data) then
    ErrorClass.pageStructureChanged
  else if timeoutPats.any (fun p => subMatch p e.msg.data) then
    ErrorClass.upstreamTimeout
  else
    ErrorClass.unknown

/-- A muxed mp4 720p descriptor used in concrete evaluations. -/
def d720 : StreamDescriptor :=
  ⟨1, some "mp4", some "video/mp4", some "720p", true, true, some 96, none⟩

/-- A muxed mp4 360p descriptor used in concrete evaluations. -/
def d360 : StreamDescriptor :=
  ⟨2, some "mp4", some "video/mp4", some "360p", true, true, some 96, none⟩

/-- A muxed mp4 descriptor whose quality label has no leading integer,
so parseInt returns NaN on it. -/
def dBad : StreamDescriptor :=
  ⟨3, some "mp4", some "video/mp4", some "HDready", true, true, some 96, none⟩

/-- An audio-only descriptor with no declared bitrate. -/
def aNoRate : StreamDescriptor :=
  ⟨4, some "webm", some "audio/webm", none, false, true, none, none⟩

/-- An audio-only descriptor with bitrate 128. -/
def a128 : StreamDescriptor :=
  ⟨5, some "webm", some "audio/webm", none, false, true, some 128, none⟩

/-- A resolved video used in concrete evaluations. -/
def demoInfo : StreamInfo :=
  ⟨"Demo Title", "Demo Author", ["https://example.com/t.jpg"], 61,
    [d360, a128]⟩

/-- An upstream call sequence whose first call fails with a transient
network error (no authentication challenge signature) and whose later
calls would succeed. -/
def c1Oracle : Nat → Except UpstreamError StreamInfo :=
  fun n => if n == 0 then Except.error ⟨"connect ECONNRESET"⟩
    else Except.ok demoInfo

/-- An upstream error whose text matches a page-parsing or
signature-extraction failure pattern. -/
def pageErr : UpstreamError := ⟨"Could not extract functions"⟩

/-- An upstream call sequence that always fails with the
page-structure error. -/
def pageOracle : Nat → Except UpstreamError StreamInfo :=
  fun _ => Except.error pageErr

/-- An upstream call sequence that always succeeds. -/
def okOracle : Nat → Except UpstreamError StreamInfo :=
  fun _ => Except.ok demoInfo

/-- Split a character list on the colon separator (used only to state
the shape of formatDuration output). -/
def splitColon : List Char → List (List Char)
  | [] => [[]]
  | c :: rest =>
    if c = ':' then [] :: splitColon rest
    else
      match splitColon rest with
      | [] => [[c]]
      | p :: ps => (c :: p) :: ps

/-- A non-empty run of decimal digits. -/
def digitRun (cs : List Char) : Bool :=
  !cs.isEmpty && cs.all (fun c => c.isDigit)

/-- Exactly two decimal digits. -/
def digitPair (cs : List Char) : Bool :=
  cs.length == 2 && cs.all (fun c => c.isDigit)

/-- Does the string have the shape H:MM:SS — digits, a colon, two
digits, a colon, two digits? -/
def isHMMSS (s : String) : Bool :=
  match splitColon s.data with
  | [h, m, sec] => digitRun h && digitPair m && digitPair sec
  | _ => false

/-- Does the string have the shape M:SS — digits, a colon, two
digits? -/
def isMSS (s : String) : Bool :=
  match splitColon s.data with
  | [m, sec] => digitRun m && digitPair sec
  | _ => false

/-! ### Helper lemmas about the stable sort model -/

theorem mem_insertBy {c : α → α → Int} {x a : α} :
    ∀ {l : List α}, a ∈ insertBy c x l ↔ a = x ∨ a ∈ l := by
  intro l
  induction l with
  | nil => simp [insertBy]
  | cons y ys ih =>
    simp only [insertBy]
    split
    · simp
    · simp only [List.mem_cons, ih]
      tauto

theorem mem_sortJs {c : α → α → Int} {a : α} :
    ∀ {l : List α}, a ∈ sortJs c l ↔ a ∈ l := by
  intro l
  induction l with
  | nil => simp [sortJs]
  | cons x xs ih =>
    simp only [sortJs, mem_insertBy, ih, List.mem_cons]

/-- Head of the stable ascending insertion sort along an integer key:
the earliest minimizer.  The comparator hypothesis is restricted to
the list's own elements, so comparators that pattern-match on fields
qualify as long as the fields are defined on the list. -/
theorem sortJs_head_key {c : α → α → Int} {f : α → Int} :
    ∀ {l : List α}, (∀ a ∈ l, ∀ b ∈ l, c a b = f a - f b) →
      (sortJs c l).head? = argminFirst f l := by
  intro l
  induction l with
  | nil => intro _; rfl
  | cons x xs ih =>
    intro h
    have hxs : ∀ a ∈ xs, ∀ b ∈ xs, c a b = f a - f b := by
      intro a ha b hb
      exact h a (List.mem_cons_of_mem _ ha) b (List.mem_cons_of_mem _ hb)
    have ihx := ih hxs
    show (insertBy c x (sortJs c xs)).head? = argminFirst f (x :: xs)
    cases e : sortJs c xs with
    | nil =>
      rw [e] at ihx
      simp only [insertBy, argminFirst, ← ihx]
      rfl
    | cons y ys =>
      rw [e] at ihx
      have hy : y ∈ xs := by
        have : y ∈ sortJs c xs := by rw [e]; exact List.mem_cons_self y ys
        exact mem_sortJs.mp this
      have hcxy : c x y = f x - f y :=
        h x (List.mem_cons_self x xs) y (List.mem_cons_of_mem _ hy)
      simp only [insertBy, argminFirst, ← ihx, List.head?_cons] at *
      by_cases hle : f x ≤ f y
      · rw [if_pos (by omega : c x y ≤ 0)]
        rw [if_neg (by omega : ¬ f y < f x)]
        rfl
      · rw [if_neg (by omega : ¬ c x y ≤ 0)]
        rw [if_pos (by omega : f y < f x)]
        rfl

/-! ### C3 and C4: format selection -/

/-- C3, counterexample: the claim treats an unparsable quality label as
0, but in the code parseInt yields NaN on it, every comparison against
NaN is coerced to 0 by SortCompare, and the stable sort leaves the
descriptor in place.  With the muxed list [dBad, d720] (dBad has the
unparsable label "HDready") the claimed selection is d720, yet the
code serves dBad. -/
theorem selectVideo_c3_counterexample :
    selectVideo [dBad, d720] true = some dBad ∧
    selectVideoSpec [dBad, d720] true = some d720 ∧
    dBad ≠ d720 :=
  ⟨rfl, rfl, by decide⟩

/-- C3, amended: when every muxed mp4 candidate has an absent, empty or
parsable quality label (so its comparator key is a number, not NaN),
video selection returns the earliest candidate with the largest parsed
key for the highest class and the earliest with the smallest for the
lowest class, ties broken by original order; with no muxed candidate it
returns none and the stream falls back to the generic quality-hint
request.  A candidate whose non-empty label parseInt cannot parse
compares as equal to its neighbours instead of carrying key 0. -/
theorem selectVideo_c3_amended (l : List StreamDescriptor)
    (h : ∀ d ∈ l.filter muxedMp4, (videoKey d).isSome = true) :
    selectVideo l true =
      argmaxFirst (fun d => (videoKey d).getD 0) (l.filter muxedMp4) ∧
    selectVideo l false =
      argminFirst (fun d => (videoKey d).getD 0) (l.filter muxedMp4) ∧
    (l.filter muxedMp4 = [] → ∀ fmt,
      videoStreamSource fmt l = StreamSource.fallbackQuality (qualityOption fmt)) := by
  refine ⟨?_, ?_, ?_⟩
  · show (sortJs (cVideo true) (l.filter muxedMp4)).head? = _
    rw [argmaxFirst]
    apply sortJs_head_key
    intro a ha b hb
    obtain ⟨ka, hka⟩ := Option.isSome_iff_exists.mp (h a ha)
    obtain ⟨kb, hkb⟩ := Option.isSome_iff_exists.mp (h b hb)
    simp [cVideo, hka, hkb]
    omega
  · show (sortJs (cVideo false) (l.filter muxedMp4)).head? = _
    apply sortJs_head_key
    intro a ha b hb
    obtain ⟨ka, hka⟩ := Option.isSome_iff_exists.mp (h a ha)
    obtain ⟨kb, hkb⟩ := Option.isSome_iff_exists.mp (h b hb)
    simp [cVideo, hka, hkb]
  · intro hnil fmt
    unfold videoStreamSource selectVideo
    rw [hnil]
    rfl

/-- C3, witness: on the concrete muxed list [d360, d720] the amended
statement applies and selection for the highest class is the 720p
descriptor. -/
theorem selectVideo_c3_witness :
    (∀ d ∈ ([d360, d720].filter muxedMp4), (videoKey d).isSome = true) ∧
    selectVideo [d360, d720] true =
      argmaxFirst (fun d => (videoKey d).getD 0) ([d360, d720].filter muxedMp4) ∧
    selectVideo [d360, d720] true = some d720 :=
  ⟨by decide, (selectVideo_c3_amended [d360, d720] (by decide)).1, rfl⟩

/-- C4, counterexample: the claim treats an absent audioBitrate as 0,
but in the code the comparator subtraction on undefined is NaN, which
SortCompare coerces to 0, so the bitrate-free descriptor keeps its
position.  With the audio-only list [aNoRate, a128] the claimed
selection is a128 (maximum bitrate), yet the code serves aNoRate. -/
theorem selectAudio_c4_counterexample :
    selectAudio [aNoRate, a128] = some aNoRate ∧
    selectAudioSpec [aNoRate, a128] = some a128 ∧
    aNoRate ≠ a128 :=
  ⟨rfl, rfl, by decide⟩

/-- C4, amended: when every audio-only candidate declares a numeric
audioBitrate, audio selection returns the earliest candidate of
maximum bitrate; with an empty or all-video descriptor set it returns
none and the stream falls back to the generic highest-audio request.
A candidate with an absent bitrate compares as equal to its
neighbours instead of carrying bitrate 0. -/
theorem selectAudio_c4_amended (l : List StreamDescriptor)
    (h : ∀ d ∈ l.filter audioOnly, (d.audioBitrate).isSome = true) :
    selectAudio l =
      argmaxFirst (fun d => (d.audioBitrate).getD 0) (l.filter audioOnly) ∧
    (l.filter audioOnly = [] →
      selectAudio l = none ∧
      audioStreamSource l = StreamSource.fallbackQuality "highestaudio") := by
  constructor
  · show (sortJs cAudio (l.filter audioOnly)).head? = _
    rw [argmaxFirst]
    apply sortJs_head_key
    intro a ha b hb
    obtain ⟨ka, hka⟩ := Option.isSome_iff_exists.mp (h a ha)
    obtain ⟨kb, hkb⟩ := Option.isSome_iff_exists.mp (h b hb)
    simp [cAudio, hka, hkb]
    omega
  · intro hnil
    constructor
    · unfold selectAudio
      rw [hnil]
      rfl
    · unfold audioStreamSource selectAudio
      rw [hnil]
      rfl

/-- C4, witness: on the concrete audio-only list [a128] the amended
statement applies and the selected stream is a128. -/
theorem selectAudio_c4_witness :
    (∀ d ∈ ([a128, d360].filter audioOnly), (d.audioBitrate).isSome = true) ∧
    selectAudio [a128, d360] =
      argmaxFirst (fun d => (d.audioBitrate).getD 0) ([a128, d360].filter audioOnly) ∧
    selectAudio [a128, d360] = some a128 :=
  ⟨by decide, (selectAudio_c4_amended [a128, d360] (by decide)).1, rfl⟩

/-! ### C1: retry loop -/

theorem retryLoop_eq_ok (oracle : Nat → Except UpstreamError StreamInfo)
    (r calls : Nat) (i : StreamInfo) (h : oracle calls = Except.ok i) :
    retryLoop oracle (r + 1) calls = (Except.ok i, calls + 1) := by
  simp only [retryLoop, h]

theorem retryLoop_eq_stop (oracle : Nat → Except UpstreamError StreamInfo)
    (r calls : Nat) (e : UpstreamError) (h : oracle calls = Except.error e)
    (hc : r = 0 ∨ containsSignIn e.msg = false) :
    retryLoop oracle (r + 1) calls = (Except.error e, calls + 1) := by
  simp only [retryLoop, h]
  rw [if_pos hc]

theorem retryLoop_eq_next (oracle : Nat → Except UpstreamError StreamInfo)
    (r calls : Nat) (e : UpstreamError) (h : oracle calls = Except.error e)
    (hc : ¬(r = 0 ∨ containsSignIn e.msg = false)) :
    retryLoop oracle (r + 1) calls = retryLoop oracle r (calls + 1) := by
  simp only [retryLoop, h]
  rw [if_neg hc]

theorem retryLoop_snd_le (oracle : Nat → Except UpstreamError StreamInfo) :
    ∀ (r calls : Nat), (retryLoop oracle r calls).2 ≤ calls + r := by
  intro r
  induction r with
  | zero => intro calls; simp [retryLoop]
  | succ n ih =>
    intro calls
    cases ho : oracle calls with
    | ok i =>
      rw [retryLoop_eq_ok oracle n calls i ho]
      omega
    | error e =>
      by_cases hc : n = 0 ∨ containsSignIn e.msg = false
      · rw [retryLoop_eq_stop oracle n calls e ho hc]
        omega
      · rw [retryLoop_eq_next oracle n calls e ho hc]
        have := ih (calls + 1)
        omega

theorem retryLoop_snd_ge (oracle : Nat → Except UpstreamError StreamInfo) :
    ∀ (r calls : Nat), 1 ≤ r → calls + 1 ≤ (retryLoop oracle r calls).2 := by
  intro r
  induction r with
  | zero => intro calls h; omega
  | succ n ih =>
    intro calls _
    cases ho : oracle calls with
    | ok i =>
      rw [retryLoop_eq_ok oracle n calls i ho]
    | error e =>
      by_cases hc : n = 0 ∨ containsSignIn e.msg = false
      · rw [retryLoop_eq_stop oracle n calls e ho hc]
      · rw [retryLoop_eq_next oracle n calls e ho hc]
        have hn : 1 ≤ n := by
          rcases Nat.eq_zero_or_pos n with h0 | h1
          · exact absurd (Or.inl h0) hc
          · exact h1
        have := ih (calls + 1) hn
        omega

theorem retryLoop_ok_spec (oracle : Nat → Except UpstreamError StreamInfo) :
    ∀ (r calls : Nat) (i : StreamInfo),
      (retryLoop oracle r calls).1 = Except.ok i →
      oracle ((retryLoop oracle r calls).2 - 1) = Except.ok i ∧
      ∀ j, calls ≤ j → j + 1 < (retryLoop oracle r calls).2 →
        ∃ e, oracle j = Except.error e ∧ containsSignIn e.msg = true := by
  intro r
  induction r with
  | zero => intro calls i h; simp [retryLoop] at h
  | succ n ih =>
    intro calls i h
    cases ho : oracle calls with
    | ok i0 =>
      rw [retryLoop_eq_ok oracle n calls i0 ho] at h ⊢
      simp only [Except.ok.injEq] at h
      subst h
      refine ⟨by simpa using ho, ?_⟩
      intro j hj1 hj2
      simp only [Nat.add_sub_cancel] at hj2
      omega
    | error e =>
      by_cases hc : n = 0 ∨ containsSignIn e.msg = false
      · rw [retryLoop_eq_stop oracle n calls e ho hc] at h
        simp at h
      · rw [retryLoop_eq_next oracle n calls e ho hc] at h ⊢
        have hsig : containsSignIn e.msg = true := by
          cases hb : containsSignIn e.msg with
          | false => exact absurd (Or.inr hb) hc
          | true => rfl
        obtain ⟨h1, h2⟩ := ih (calls + 1) i h
        refine ⟨h1, ?_⟩
        intro j hj1 hj2
        rcases Nat.eq_or_lt_of_le hj1 with hje | hjl
        · refine ⟨e, ?_, hsig⟩
          rw [← hje]
          exact ho
        · exact h2 j hjl hj2

theorem retryLoop_err_spec (oracle : Nat → Except UpstreamError StreamInfo) :
    ∀ (r calls : Nat) (e : UpstreamError), 1 ≤ r →
      (retryLoop oracle r calls).1 = Except.error e →
      oracle ((retryLoop oracle r calls).2 - 1) = Except.error e ∧
      (containsSignIn e.msg = false ∨ (retryLoop oracle r calls).2 = calls + r) := by
  intro r
  induction r with
  | zero => intro calls e h; omega
  | succ n ih =>
    intro calls e _ h
    cases ho : oracle calls with
    | ok i0 =>
      rw [retryLoop_eq_ok oracle n calls i0 ho] at h
      simp at h
    | error e0 =>
      by_cases hc : n = 0 ∨ containsSignIn e0.msg = false
      · rw [retryLoop_eq_stop oracle n calls e0 ho hc] at h ⊢
        simp only [Except.error.injEq] at h
        subst h
        simp only [Nat.add_sub_cancel]
        refine ⟨ho, ?_⟩
        rcases hc with hn | hs
        · right; omega
        · exact Or.inl hs
      · rw [retryLoop_eq_next oracle n calls e0 ho hc] at h ⊢
        have hn : 1 ≤ n := by
          rcases Nat.eq_zero_or_pos n with h0 | h1
          · exact absurd (Or.inl h0) hc
          · exact h1
        obtain ⟨h1, h2⟩ := ih (calls + 1) e hn h
        refine ⟨h1, ?_⟩
        rcases h2 with h2 | h2
        · exact Or.inl h2
        · right; omega

/-- C1, counterexample: the code has no identity rotation and no
9-call budget.  On a call sequence whose first upstream call fails
with a transient network error (not the authentication challenge) and
whose second call would succeed, the claimed resolver returns that
success within its budget, but the code rethrows after a single
upstream call, so the request does not return the first successful
upstream result. -/
theorem resolver_c1_counterexample :
    (getInfoRetry c1Oracle).1 = Except.error ⟨"connect ECONNRESET"⟩ ∧
    (getInfoRetry c1Oracle).2 = 1 ∧
    c1Oracle 1 = Except.ok demoInfo ∧
    specResolve c1Oracle = Except.ok demoInfo :=
  ⟨rfl, rfl, rfl, rfl⟩

/-- C1, amended: for every upstream call sequence the retry logic of
both endpoints makes between 1 and 3 calls with the single fixed
browser header profile; a success is returned immediately, at which
point every earlier call failed with the authentication challenge
signature in its message; a failure outcome is the last-observed
error, and the loop only reaches it when that error lacks the
signature or all 3 calls are spent. -/
theorem resolver_c1_amended (oracle : Nat → Except UpstreamError StreamInfo) :
    (1 ≤ (getInfoRetry oracle).2 ∧ (getInfoRetry oracle).2 ≤ 3) ∧
    (∀ i, (getInfoRetry oracle).1 = Except.ok i →
      oracle ((getInfoRetry oracle).2 - 1) = Except.ok i ∧
      ∀ j, j + 1 < (getInfoRetry oracle).2 →
        ∃ e, oracle j = Except.error e ∧ containsSignIn e.msg = true) ∧
    (∀ e, (getInfoRetry oracle).1 = Except.error e →
      oracle ((getInfoRetry oracle).2 - 1) = Except.error e ∧
      (containsSignIn e.msg = false ∨ (getInfoRetry oracle).2 = 3)) := by
  refine ⟨⟨?_, ?_⟩, ?_, ?_⟩
  · exact retryLoop_snd_ge oracle 3 0 (by omega)
  · exact retryLoop_snd_le oracle 3 0
  · intro i h
    obtain ⟨h1, h2⟩ := retryLoop_ok_spec oracle 3 0 i h
    exact ⟨h1, fun j hj => h2 j (Nat.zero_le j) hj⟩
  · intro e h
    exact retryLoop_err_spec oracle 3 0 e (by omega) h

/-- C1, witness: on an always-succeeding upstream the amended
statement yields that the first call's result is returned after
exactly one call. -/
theorem resolver_c1_witness :
    (getInfoRetry okOracle).1 = Except.ok demoInfo ∧
    okOracle ((getInfoRetry okOracle).2 - 1) = Except.ok demoInfo ∧
    (getInfoRetry okOracle).2 ≤ 3 :=
  ⟨rfl, ((resolver_c1_amended okOracle).2.1 demoInfo rfl).1,
    (resolver_c1_amended okOracle).1.2⟩

/-! ### C2: failure statuses -/

/-- C2, counterexample: no error classifier exists in the code.  An
upstream failure whose message matches the page-structure pattern set
(classified PageStructureChanged by the spec-modelled classifier) is
answered with status 500 by POST /api/video-info, not with the claimed
503. -/
theorem status_c2_counterexample :
    specClassify pageErr = ErrorClass.pageStructureChanged ∧
    (videoInfoHandler true "https://youtu.be/demo" pageOracle).status = 500 ∧
    ¬(videoInfoHandler true "https://youtu.be/demo" pageOracle).status = 503 :=
  ⟨rfl, rfl, by decide⟩

/-- C2, amended: every upstream failure of either endpoint is caught
at the handler boundary and answered with status 500 and a message
body — POST /api/video-info with the fixed message, GET /api/download
with the message prefixed text of the error — regardless of how the
error would classify; no failure propagates unhandled, but neither
503 nor 504 is ever produced. -/
theorem status_c2_amended (url : String)
    (oracle : Nat → Except UpstreamError StreamInfo) (e : UpstreamError)
    (h : (getInfoRetry oracle).1 = Except.error e) :
    videoInfoHandler true url oracle =
      ⟨500, JVal.obj [("message", JVal.str "Failed to fetch video information")]⟩ ∧
    downloadResolve true oracle = Except.error (downloadFailureResponse e) := by
  constructor
  · unfold videoInfoHandler
    rw [h]
    rfl
  · unfold downloadResolve
    rw [h]
    rfl

/-- C2, witness: the amended statement applied to the concrete
page-structure failure. -/
theorem status_c2_witness :
    videoInfoHandler true "https://youtu.be/demo2" pageOracle =
      ⟨500, JVal.obj [("message", JVal.str "Failed to fetch video information")]⟩ ∧
    downloadResolve true pageOracle = Except.error (downloadFailureResponse pageErr) :=
  status_c2_amended "https://youtu.be/demo2" pageOracle pageErr rfl

/-! ### C5: stream error listeners -/

/-- C5, counterexample: after at least one byte has been flushed
(headersSent), the stream error listeners leave the client connection
untouched — they neither send a JSON payload nor terminate the
connection, while the claim asserts an abrupt termination. -/
theorem relay_c5_counterexample :
    videoStreamErrorAction true = ClientAction.noAction ∧
    audioStreamErrorAction true = ClientAction.noAction ∧
    ¬videoStreamErrorAction true = ClientAction.terminateConnection ∧
    ¬audioStreamErrorAction true = ClientAction.terminateConnection :=
  ⟨rfl, rfl, by decide, by decide⟩

/-- C5, amended: if the remote stream errors before any byte has been
written the client receives a 500 JSON error payload; if it errors
after at least one byte has been written no JSON payload is sent and
the listener takes no action on the connection (it is not explicitly
terminated by the handler). -/
theorem relay_c5_amended (headersSent : Bool) :
    (headersSent = false →
      videoStreamErrorAction headersSent =
        ClientAction.sendJson 500 "Failed to download video" ∧
      audioStreamErrorAction headersSent =
        ClientAction.sendJson 500 "Failed to download audio") ∧
    (headersSent = true →
      videoStreamErrorAction headersSent = ClientAction.noAction ∧
      audioStreamErrorAction headersSent = ClientAction.noAction) := by
  cases headersSent with
  | false => exact ⟨fun _ => ⟨rfl, rfl⟩, fun h => by simp at h⟩
  | true => exact ⟨fun h => by simp at h, fun _ => ⟨rfl, rfl⟩⟩

/-- C5, witness: the amended statement applied before the first
byte. -/
theorem relay_c5_witness :
    videoStreamErrorAction false =
      ClientAction.sendJson 500 "Failed to download video" ∧
    audioStreamErrorAction false =
      ClientAction.sendJson 500 "Failed to download audio" :=
  (relay_c5_amended false).1 rfl

/-! ### C6: video-info response shape -/

/-- C6, counterexample: the 200 body of POST /api/video-info has no
id field, and its format entries carry only itag, quality and
mimeType — no hasVideo or hasAudio flags — contradicting the claimed
body shape. -/
theorem videoInfo_c6_counterexample :
    (videoInfoHandler true "https://youtu.be/ok" okOracle).status = 200 ∧
    jKeys (videoInfoHandler true "https://youtu.be/ok" okOracle).body =
      ["url", "title", "author", "thumbnail", "duration", "formats"] ∧
    "id" ∉ jKeys (videoInfoHandler true "https://youtu.be/ok" okOracle).body ∧
    jKeys (fmtEntry d360) = ["itag", "quality", "mimeType"] ∧
    "hasVideo" ∉ jKeys (fmtEntry d360) ∧
    "hasAudio" ∉ jKeys (fmtEntry d360) :=
  ⟨rfl, rfl, by decide, rfl, by decide, by decide⟩

/-- C6, amended: for every successful POST /api/video-info request
(resolution succeeded and the video declares at least one thumbnail)
the 200 body contains exactly url, title, author, thumbnail, duration
rendered by formatDuration, and a formats array with one entry per
upstream stream — hence non-empty whenever the upstream declares at
least one — whose entries carry itag together with quality and
mimeType when the upstream declares them; there is no id field and no
hasVideo/hasAudio flags. -/
theorem videoInfo_c6_amended (url : String) (info : StreamInfo)
    (t : String) (ts : List String) (h : info.thumbnails = t :: ts) :
    ∃ b, videoInfoBody url info = some b ∧
      videoInfoHandler true url (fun _ => Except.ok info) = ⟨200, b⟩ ∧
      jKeys b = ["url", "title", "author", "thumbnail", "duration", "formats"] ∧
      jGet "duration" b = some (JVal.str (formatDuration info.lengthSeconds)) ∧
      jGet "formats" b = some (JVal.arr (info.formats.map fmtEntry)) ∧
      (info.formats.map fmtEntry).length = info.formats.length ∧
      ∀ f ∈ info.formats, "itag" ∈ jKeys (fmtEntry f) ∧
        ∀ k ∈ jKeys (fmtEntry f), k = "itag" ∨ k = "quality" ∨ k = "mimeType" := by
  have hb : videoInfoBody url info = some (JVal.obj
      [("url", JVal.str url), ("title", JVal.str info.title),
       ("author", JVal.str info.authorName), ("thumbnail", JVal.str t),
       ("duration", JVal.str (formatDuration info.lengthSeconds)),
       ("formats", JVal.arr (info.formats.map fmtEntry))]) := by
    unfold videoInfoBody
    rw [h]
  refine ⟨_, hb, ?_, rfl, rfl, rfl, List.length_map _ _, ?_⟩
  · unfold videoInfoHandler
    rw [show (getInfoRetry (fun _ => Except.ok info)).1 = Except.ok info from rfl]
    show (match videoInfoBody url info with
      | none =>
        (⟨500, JVal.obj
          [("message", JVal.str "Failed to fetch video information")]⟩ :
          HttpResponse)
      | some b => ⟨200, b⟩) = _
    rw [hb]
  · intro f _
    constructor
    · rcases f.qualityLabel with _ | q <;> rcases f.mimeType with _ | m <;>
        simp [fmtEntry, jKeys]
    · intro k hk
      rcases hq : f.qualityLabel with _ | q <;> rcases hm : f.mimeType with _ | m <;>
        simp [fmtEntry, jKeys, hq, hm] at hk <;> tauto

/-- C6, witness: the amended statement applied to the demo video. -/
theorem videoInfo_c6_witness :
    ∃ b, videoInfoBody "https://youtu.be/w" demoInfo = some b ∧
      jKeys b = ["url", "title", "author", "thumbnail", "duration", "formats"] := by
  obtain ⟨b, h1, _, h3, _⟩ :=
    videoInfo_c6_amended "https://youtu.be/w" demoInfo
      "https://example.com/t.jpg" [] rfl
  exact ⟨b, h1, h3⟩

/-! ### C10: recorded format class versus served quality -/

/-- C10: a GET /api/download request with no format query parameter
stores the schema default "highest" in the download record, while the
handler's strict comparison `format === "highest"` is false for the
absent parameter, so the sort runs ascending and the served stream is
the lowest-quality muxed candidate (d360 here, where the highest
class would serve d720), and the generic fallback hint is
"lowestvideo". -/
theorem record_c10_format_mismatch :
    recordFormat none = "highest" ∧
    wantHighest none = false ∧
    qualityOption none = "lowestvideo" ∧
    videoStreamSource none [d720, d360] = StreamSource.fromDescriptor d360 ∧
    videoStreamSource (some "highest") [d720, d360] =
      StreamSource.fromDescriptor d720 ∧
    d360 ≠ d720 :=
  ⟨rfl, rfl, rfl, rfl, rfl, by decide⟩

/-! ### C7 and C9: sanitization -/

theorem dropWhile_head_not (p : Char → Bool) :
    ∀ (l : List Char) (a : Char), (l.dropWhile p).head? = some a → p a = false := by
  intro l
  induction l with
  | nil => intro a h; simp [List.dropWhile] at h
  | cons x xs ih =>
    intro a h
    cases hx : p x with
    | true =>
      rw [List.dropWhile_cons_of_pos hx] at h
      exact ih a h
    | false =>
      rw [List.dropWhile_cons_of_neg (by simp [hx])] at h
      simp at h
      rw [← h]
      exact hx

theorem dropWhile_dropWhile (p : Char → Bool) (l : List Char) :
    (l.dropWhile p).dropWhile p = l.dropWhile p := by
  cases e : l.dropWhile p with
  | nil => rfl
  | cons a rest =>
    have ha : p a = false := by
      apply dropWhile_head_not p l
      rw [e]
      rfl
    rw [List.dropWhile_cons_of_neg (by simp [ha])]

theorem mem_jsTrim (l : List Char) (c : Char) (h : c ∈ jsTrim l) : c ∈ l := by
  unfold jsTrim at h
  rw [List.mem_reverse] at h
  have h1 := (List.dropWhile_suffix isJsSpace).subset h
  rw [List.mem_reverse] at h1
  exact (List.dropWhile_suffix isJsSpace).subset h1

theorem jsTrim_idem (l : List Char) : jsTrim (jsTrim l) = jsTrim l := by
  have hpre : jsTrim l <+: l.dropWhile isJsSpace := by
    have hs : ((l.dropWhile isJsSpace).reverse.dropWhile isJsSpace) <:+
        (l.dropWhile isJsSpace).reverse := List.dropWhile_suffix isJsSpace
    have := List.reverse_prefix.mpr hs
    rw [List.reverse_reverse] at this
    exact this
  have step1 : (jsTrim l).dropWhile isJsSpace = jsTrim l := by
    cases e : jsTrim l with
    | nil => rfl
    | cons a rest =>
      have hhead : (l.dropWhile isJsSpace).head? = some a := by
        rw [e] at hpre
        obtain ⟨tail, htail⟩ := hpre
        rw [← htail]
        rfl
      have ha : isJsSpace a = false := dropWhile_head_not isJsSpace l a hhead
      rw [List.dropWhile_cons_of_neg (by simp [ha])]
  have step2 : (jsTrim l).reverse.dropWhile isJsSpace = (jsTrim l).reverse := by
    show ((((l.dropWhile isJsSpace).reverse.dropWhile isJsSpace)).reverse).reverse.dropWhile isJsSpace = _
    rw [List.reverse_reverse]
    rw [dropWhile_dropWhile]
    unfold jsTrim
    rw [List.reverse_reverse]
  show (((jsTrim l).dropWhile isJsSpace).reverse.dropWhile isJsSpace).reverse = jsTrim l
  rw [step1, step2, List.reverse_reverse]

/-- C9: sanitization is idempotent — stripping the disallowed
characters and trimming a second time changes nothing. -/
theorem sanitize_c9_idempotent (t : String) :
    sanitize (sanitize t) = sanitize t := by
  show String.mk (jsTrim ((jsTrim (t.data.filter keepChar)).filter keepChar)) =
    String.mk (jsTrim (t.data.filter keepChar))
  have hall : ∀ c ∈ jsTrim (t.data.filter keepChar), keepChar c = true := by
    intro c hc
    exact List.of_mem_filter (mem_jsTrim (t.data.filter keepChar) c hc)
  rw [List.filter_eq_self.mpr hall]
  rw [jsTrim_idem]

/-- C7, counterexample: the code never substitutes the literal name
"video".  Sanitizing "!!!" (and "") yields the empty string and the
attachment file name becomes just the extension. -/
theorem fileName_c7_counterexample :
    sanitize "!!!" = "" ∧
    sanitize "" = "" ∧
    videoFileName "!!!" = ".mp4" ∧
    ¬videoFileName "!!!" = "video.mp4" :=
  ⟨rfl, rfl, rfl, by decide⟩

/-- C7, amended: the attachment file name is the title stripped of
every character outside word characters, whitespace and hyphen, then
trimmed, followed by the extension; when the stripped-and-trimmed
title is empty the file name is just the bare extension — the literal
name "video" is never substituted. -/
theorem fileName_c7_amended (t : String) :
    (∀ c ∈ (sanitize t).data, keepChar c = true) ∧
    videoFileName t = sanitize t ++ ".mp4" ∧
    audioFileName t = sanitize t ++ ".mp3" ∧
    (sanitize t = "" → videoFileName t = ".mp4" ∧ audioFileName t = ".mp3") := by
  refine ⟨?_, rfl, rfl, ?_⟩
  · intro c hc
    exact List.of_mem_filter (mem_jsTrim (t.data.filter keepChar) c hc)
  · intro h
    unfold videoFileName audioFileName
    rw [h]
    exact ⟨rfl, rfl⟩

/-- C7, witness: the amended statement applied to the all-symbols
title. -/
theorem fileName_c7_witness :
    videoFileName "!!!" = ".mp4" ∧ audioFileName "!!!" = ".mp3" :=
  (fileName_c7_amended "!!!").2.2.2 rfl

/-! ### C8: duration formatting -/

theorem digitChar_isDigit : ∀ m, m < 10 → (Nat.digitChar m).isDigit = true := by
  decide

theorem toDigitsCore_digits : ∀ (fuel n : Nat) (acc : List Char),
    (∀ c ∈ acc, c.isDigit = true) →
    ∀ c ∈ Nat.toDigitsCore 10 fuel n acc, c.isDigit = true := by
  intro fuel
  induction fuel with
  | zero => intro n acc hacc c hc; exact hacc c hc
  | succ f ih =>
    intro n acc hacc c hc
    have heq : Nat.toDigitsCore 10 (f + 1) n acc =
        if n / 10 = 0 then Nat.digitChar (n % 10) :: acc
        else Nat.toDigitsCore 10 f (n / 10) (Nat.digitChar (n % 10) :: acc) := rfl
    have hacc2 : ∀ x ∈ (Nat.digitChar (n % 10) :: acc), x.isDigit = true := by
      intro x hx
      rcases List.mem_cons.mp hx with h | h
      · rw [h]
        exact digitChar_isDigit (n % 10) (Nat.mod_lt n (by omega))
      · exact hacc x h
    rw [heq] at hc
    by_cases hz : n / 10 = 0
    · rw [if_pos hz] at hc
      exact hacc2 c hc
    · rw [if_neg hz] at hc
      exact ih (n / 10) _ hacc2 c hc

theorem toDigitsCore_length_le : ∀ (fuel n : Nat) (acc : List Char),
    acc.length ≤ (Nat.toDigitsCore 10 fuel n acc).length := by
  intro fuel
  induction fuel with
  | zero => intro n acc; exact Nat.le_refl _
  | succ f ih =>
    intro n acc
    have heq : Nat.toDigitsCore 10 (f + 1) n acc =
        if n / 10 = 0 then Nat.digitChar (n % 10) :: acc
        else Nat.toDigitsCore 10 f (n / 10) (Nat.digitChar (n % 10) :: acc) := rfl
    rw [heq]
    by_cases hz : n / 10 = 0
    · rw [if_pos hz]
      simp
    · rw [if_neg hz]
      have := ih (n / 10) (Nat.digitChar (n % 10) :: acc)
      simp at this
      omega

theorem toDigitsCore_length_lt (f n : Nat) (acc : List Char) :
    acc.length < (Nat.toDigitsCore 10 (f + 1) n acc).length := by
  have heq : Nat.toDigitsCore 10 (f + 1) n acc =
      if n / 10 = 0 then Nat.digitChar (n % 10) :: acc
      else Nat.toDigitsCore 10 f (n / 10) (Nat.digitChar (n % 10) :: acc) := rfl
  rw [heq]
  by_cases hz : n / 10 = 0
  · rw [if_pos hz]
    simp
  · rw [if_neg hz]
    have := toDigitsCore_length_le f (n / 10) (Nat.digitChar (n % 10) :: acc)
    simp at this
    omega

theorem repr_data_digits (n : Nat) : ∀ c ∈ (Nat.repr n).data, c.isDigit = true := by
  have hd : (Nat.repr n).data = Nat.toDigitsCore 10 (n + 1) n [] := rfl
  rw [hd]
  exact toDigitsCore_digits (n + 1) n [] (by intro c hc; cases hc)

theorem repr_data_ne_nil (n : Nat) : ¬(Nat.repr n).data = [] := by
  intro h
  have hd : (Nat.repr n).data = Nat.toDigitsCore 10 (n + 1) n [] := rfl
  have := toDigitsCore_length_lt n n []
  rw [← hd, h] at this
  simp at this

theorem isDigit_ne_colon (c : Char) (h : c.isDigit = true) : ¬c = ':' := by
  intro hc
  rw [hc] at h
  exact absurd h (by decide)

theorem repr_no_colon (n : Nat) : ∀ c ∈ (Nat.repr n).data, ¬c = ':' :=
  fun c hc => isDigit_ne_colon c (repr_data_digits n c hc)

theorem digitRun_repr (n : Nat) : digitRun (Nat.repr n).data = true := by
  unfold digitRun
  rw [Bool.and_eq_true]
  constructor
  · cases e : (Nat.repr n).data with
    | nil => exact absurd e (repr_data_ne_nil n)
    | cons c rest => rfl
  · rw [List.all_eq_true]
    intro c hc
    exact repr_data_digits n c hc

theorem padStart2_repr_lt60 : ∀ m, m < 60 →
    (padStart2 (Nat.repr m)).data.length = 2 ∧
    ∀ c ∈ (padStart2 (Nat.repr m)).data, c.isDigit = true := by
  decide

theorem digitPair_pad (m : Nat) (hm : m < 60) :
    digitPair (padStart2 (Nat.repr m)).data = true := by
  obtain ⟨h1, h2⟩ := padStart2_repr_lt60 m hm
  unfold digitPair
  rw [Bool.and_eq_true, List.all_eq_true]
  constructor
  · rw [h1]
    rfl
  · intro c hc
    exact h2 c hc

theorem pad_no_colon (m : Nat) (hm : m < 60) :
    ∀ c ∈ (padStart2 (Nat.repr m)).data, ¬c = ':' := by
  intro c hc
  exact isDigit_ne_colon c ((padStart2_repr_lt60 m hm).2 c hc)

theorem splitColon_ne_nil : ∀ (l : List Char), ¬splitColon l = [] := by
  intro l
  cases l with
  | nil => simp [splitColon]
  | cons c rest =>
    by_cases hc : c = ':'
    · simp [splitColon, hc]
    · simp only [splitColon, if_neg hc]
      cases h : splitColon rest with
      | nil => simp
      | cons p ps => simp

theorem splitColon_no_colon : ∀ (l : List Char), (∀ c ∈ l, ¬c = ':') →
    splitColon l = [l] := by
  intro l
  induction l with
  | nil => intro _; rfl
  | cons c rest ih =>
    intro h
    have hc : ¬c = ':' := h c (List.mem_cons_self c rest)
    have hrest := ih (fun x hx => h x (List.mem_cons_of_mem c hx))
    simp only [splitColon, if_neg hc, hrest]

theorem splitColon_append (b : List Char) : ∀ (a : List Char),
    (∀ c ∈ a, ¬c = ':') →
    splitColon (a ++ ':' :: b) = a :: splitColon b := by
  intro a
  induction a with
  | nil =>
    intro _
    show splitColon (':' :: b) = [] :: splitColon b
    simp [splitColon]
  | cons c a2 ih =>
    intro h
    have hc : ¬c = ':' := h c (List.mem_cons_self c a2)
    have ha2 := ih (fun x hx => h x (List.mem_cons_of_mem c hx))
    show splitColon (c :: (a2 ++ ':' :: b)) = (c :: a2) :: splitColon b
    simp only [splitColon, if_neg hc, ha2]

/-- C8: formatDuration yields the H:MM:SS shape exactly when the
seconds are at least 3600 and the M:SS shape otherwise, with minutes
and seconds zero-padded to two digits when paired with a larger unit,
and on the claimed sample inputs it yields "1:01:01", "0:59" and
"0:00". -/
theorem formatDuration_c8 (s : Nat) :
    isHMMSS (formatDuration s) = decide (3600 ≤ s) ∧
    isMSS (formatDuration s) = decide (s < 3600) ∧
    formatDuration 3661 = "1:01:01" ∧
    formatDuration 59 = "0:59" ∧
    formatDuration 0 = "0:00" := by
  have hfd : formatDuration s =
      if s / 3600 > 0 then
        Nat.repr (s / 3600) ++ ":" ++
          padStart2 (Nat.repr ((s % 3600) / 60)) ++ ":" ++
          padStart2 (Nat.repr (s % 60))
      else
        Nat.repr ((s % 3600) / 60) ++ ":" ++ padStart2 (Nat.repr (s % 60)) := rfl
  have hcolon : (":" : String).data = [':'] := rfl
  have hmlt : (s % 3600) / 60 < 60 := by omega
  have hslt : s % 60 < 60 := by omega
  by_cases hs : 3600 ≤ s
  · have hpos : s / 3600 > 0 := by omega
    have hdata : (formatDuration s).data =
        (Nat.repr (s / 3600)).data ++ ':' ::
          ((padStart2 (Nat.repr ((s % 3600) / 60))).data ++ ':' ::
            (padStart2 (Nat.repr (s % 60))).data) := by
      rw [hfd, if_pos hpos]
      rw [String.data_append, String.data_append, String.data_append,
        String.data_append, hcolon]
      simp [List.append_assoc]
    have hsplit : splitColon (formatDuration s).data =
        [(Nat.repr (s / 3600)).data,
         (padStart2 (Nat.repr ((s % 3600) / 60))).data,
         (padStart2 (Nat.repr (s % 60))).data] := by
      rw [hdata]
      rw [splitColon_append _ _ (repr_no_colon (s / 3600))]
      rw [splitColon_append _ _ (pad_no_colon _ hmlt)]
      rw [splitColon_no_colon _ (pad_no_colon _ hslt)]
    refine ⟨?_, ?_, rfl, rfl, rfl⟩
    · unfold isHMMSS
      rw [hsplit]
      show ((digitRun (Nat.repr (s / 3600)).data &&
        digitPair (padStart2 (Nat.repr ((s % 3600) / 60))).data) &&
          digitPair (padStart2 (Nat.repr (s % 60))).data) = decide (3600 ≤ s)
      rw [digitRun_repr, digitPair_pad _ hmlt, digitPair_pad _ hslt]
      simp [hs]
    · unfold isMSS
      rw [hsplit]
      show false = decide (s < 3600)
      simp [Nat.not_lt.mpr hs]
  · have hneg : ¬s / 3600 > 0 := by omega
    have hdata : (formatDuration s).data =
        (Nat.repr ((s % 3600) / 60)).data ++ ':' ::
          (padStart2 (Nat.repr (s % 60))).data := by
      rw [hfd, if_neg hneg]
      rw [String.data_append, String.data_append, hcolon]
      simp [List.append_assoc]
    have hsplit : splitColon (formatDuration s).data =
        [(Nat.repr ((s % 3600) / 60)).data,
         (padStart2 (Nat.repr (s % 60))).data] := by
      rw [hdata]
      rw [splitColon_append _ _ (repr_no_colon ((s % 3600) / 60))]
      rw [splitColon_no_colon _ (pad_no_colon _ hslt)]
    refine ⟨?_, ?_, rfl, rfl, rfl⟩
    · unfold isHMMSS
      rw [hsplit]
      show false = decide (3600 ≤ s)
      simp [hs]
    · unfold isMSS
      rw [hsplit]
      show (digitRun (Nat.repr ((s % 3600) / 60)).data &&
        digitPair (padStart2 (Nat.repr (s % 60))).data) = decide (s < 3600)
      rw [digitRun_repr, digitPair_pad _ hslt]
      simp [Nat.lt_of_not_le hs]
